import Mathlib

/-!
# Verification of the ClaimsMCP claim-extraction server

Shallow embedding of the ClaimsMCP repository: the MCP server layer
(`claimify_server.py`) is embedded directly from its source; the extraction
pipeline (`pipeline.py`) and LLM client (`llm_client.py`) are not shipped in
the repository snapshot under verification, so they are modelled from the
specification (sections 3-7 of the design document), with each such
definition marked `Modelled from the spec:`.
-/

namespace Claimify

/-! ## Sentence segmentation (pipeline.py, modelled from the spec) -/

/-- A sentence-final punctuation mark: `.`, `!` or `?`. -/
def isSentEnd (c : Char) : Bool := c == '.' || c == '!' || c == '?'

/-- Modelled from the spec: the sentence-boundary detection inside
`split_into_sentences` of pipeline.py (absent from src/).  Splits a line of
characters at sentence-final punctuation followed by whitespace (or end of
line); an accumulator holds the current sentence reversed. -/
def splitSentChars : List Char → List Char → List (List Char)
  | [], acc => if acc = [] then [] else [acc.reverse]
  | c :: rest, acc =>
    if isSentEnd c && (match rest with | [] => true | d :: _ => d.isWhitespace) then
      (c :: acc).reverse :: splitSentChars rest []
    else
      splitSentChars rest (c :: acc)

/-- Modelled from the spec: explicit line breaks are sentence boundaries even
without sentence-final punctuation (spec section 4.1), so the text is first cut
at newline characters. -/
def splitLinesChars : List Char → List Char → List (List Char)
  | [], acc => [acc.reverse]
  | c :: rest, acc =>
    if c = '\n' then acc.reverse :: splitLinesChars rest []
    else splitLinesChars rest (c :: acc)

/-- Drop leading and trailing whitespace from a character list. -/
def trimChars (cs : List Char) : List Char :=
  ((cs.dropWhile Char.isWhitespace).reverse.dropWhile Char.isWhitespace).reverse

/-- Modelled from the spec: `split_into_sentences` of pipeline.py (absent from
src/).  Cuts the text at line breaks, detects sentence boundaries within each
line, trims each sentence and drops empty ones; empty or whitespace-only input
yields the empty sequence (spec section 4.1). -/
def split_into_sentences (text : String) : List String :=
  ((((splitLinesChars text.toList []).map (fun line => splitSentChars line [])).flatten.map
    trimChars).filter (· ≠ [])).map (fun cs => String.mk cs)

/-! ## Context window construction (pipeline.py, modelled from the spec) -/

/-- Modelled from the spec: the sentence indices included in a context window
(spec section 3, ContextWindow): from `max 0 (i - b)` to `min (n-1) (i + a)`
inclusive, clamped at the document boundaries. -/
def contextIndices (n i b a : Nat) : List Nat :=
  List.range' (i - b) (min (n - 1) (i + a) - (i - b) + 1)

/-- Modelled from the spec: the windowed sentences, in original order. -/
def contextWindow (sentences : List String) (i b a : Nat) : List String :=
  (contextIndices sentences.length i b a).map (fun j => sentences.getD j "")

/-- Modelled from the spec: `create_context_for_sentence` of pipeline.py
(absent from src/).  Joins the windowed sentences one per line; an invalid
target index is an IndexError-class failure (spec section 4.2), rendered as
`none`. -/
def create_context_for_sentence (sentences : List String) (i b a : Nat) :
    Option String :=
  if i < sentences.length then
    some (String.intercalate "\n" (contextWindow sentences i b a))
  else none

/-- The literal input of the regression test `test_pipeline_basic` in
src/test_claimify.py. -/
def testText : String :=
  "This is the first sentence. This is the second sentence.\nThis is a third sentence on a new line."

/-! ## Stage verdicts and the pipeline (pipeline.py, modelled from the spec) -/

/-- Modelled from the spec: the outcome of one stage invocation
(spec section 3, StageVerdict), extended with `raised` for an exception
escaping the stage call (spec section 7, ExternalCollaboratorFailure). -/
inductive StageResult (α : Type) where
  | proceed (payload : α)
  | reject (reason : String)
  | unparseable (raw : String)
  | raised (e : String)
deriving Repr, DecidableEq

/-- `true` iff the stage produced a `proceed` verdict. -/
def StageResult.isProceed {α : Type} : StageResult α → Bool
  | .proceed _ => true
  | _ => false

/-- `true` iff the stage raised an exception or returned malformed output
that could not be classified into a verdict. -/
def StageResult.isFailure {α : Type} : StageResult α → Bool
  | .unparseable _ => true
  | .raised _ => true
  | _ => false

/-- An external model call made on behalf of a sentence, tagged with the
zero-based index of that sentence. -/
inductive StageCall where
  | selection (i : Nat)
  | disambiguation (i : Nat)
  | decomposition (i : Nat)
deriving Repr, DecidableEq

/-- The sentence index a stage call was made for. -/
def StageCall.idx : StageCall → Nat
  | .selection i => i
  | .disambiguation i => i
  | .decomposition i => i

/-- Modelled from the spec: a deterministic stand-in for the model-calling
collaborator (spec sections 4.3-4.5 and 9): for each sentence index it fixes
the verdict each stage's request-plus-parse step would produce in this run.
The disambiguation stage additionally receives the guiding question
(spec section 4.4). -/
structure StageOracle where
  selection : Nat → StageResult Unit
  disambiguation : String → Nat → StageResult String
  decomposition : Nat → StageResult (List String)

/-- Modelled from the spec: the three-stage chain for one sentence
(spec section 4.6).  A `reject`, `unparseable` or raised outcome
short-circuits the chain; the per-sentence exception boundary maps every
non-`proceed` outcome to zero claims.  Returns the sentence's claim
contribution together with the external calls made for it. -/
def processSentence (o : StageOracle) (q : String) (i : Nat) :
    List String × List StageCall :=
  match o.selection i with
  | .proceed _ =>
    match o.disambiguation q i with
    | .proceed _ =>
      match o.decomposition i with
      | .proceed claims =>
        (claims, [.selection i, .disambiguation i, .decomposition i])
      | _ => ([], [.selection i, .disambiguation i, .decomposition i])
    | _ => ([], [.selection i, .disambiguation i])
  | _ => ([], [.selection i])

/-- Modelled from the spec: `ClaimifyPipeline.run` of pipeline.py (absent from
src/): segment the text, process sentences strictly in document order, and
concatenate the per-sentence claim lists (spec sections 4.6 and 6).  Also
returns the full trace of external calls. -/
def runPipeline (o : StageOracle) (q : String) (text : String) :
    List String × List StageCall :=
  let sentences := split_into_sentences text
  let per := (List.range sentences.length).map (processSentence o q)
  ((per.map Prod.fst).flatten, (per.map Prod.snd).flatten)

/-- The whole three-stage chain of sentence `i` proceeds. -/
def chainSucceeds (o : StageOracle) (q : String) (i : Nat) : Bool :=
  (o.selection i).isProceed && (o.disambiguation q i).isProceed &&
    (o.decomposition i).isProceed

/-- Sentence `i`'s stage processing raises an exception or returns malformed
model output at the first stage it actually reaches. -/
def stageFailure (o : StageOracle) (q : String) (i : Nat) : Bool :=
  (o.selection i).isFailure ||
    ((o.selection i).isProceed &&
      ((o.disambiguation q i).isFailure ||
        ((o.disambiguation q i).isProceed && (o.decomposition i).isFailure)))

/-! ## The MCP server layer (src/claimify_server.py, embedded from source) -/

/-- The arguments dictionary of an `extract_claims` tool call: each field is
`none` when the key is absent (claimify_server.py lines 69-70). -/
structure ToolArguments where
  text_to_process : Option String
  question : Option String

/-- The default guiding question (claimify_server.py line 70 and the schema
default at line 57). -/
def noQuestionDefault : String := "The user did not provide a question."

/-- `arguments.get("text_to_process", "")` (claimify_server.py line 69). -/
def callToolText (args : ToolArguments) : String :=
  args.text_to_process.getD ""

/-- `arguments.get("question", ...)` (claimify_server.py line 70). -/
def callToolQuestion (args : ToolArguments) : String :=
  args.question.getD noQuestionDefault

/-- The shape of the text payload `call_tool` returns: either the JSON
serialization of a claim list or the error message of the `except` branch
(claimify_server.py lines 82-89). -/
inductive ToolPayload where
  | claimList (claims : List String)
  | errorText (msg : String)
deriving Repr, DecidableEq

/-- One handled `extract_claims` invocation: the payload returned to the
caller, plus the question and text the fresh `ClaimifyPipeline` of this
invocation was constructed with and run on (claimify_server.py lines 69-77).
The pipeline run is total (per-sentence failures are absorbed inside it,
spec section 4.6), so the `except` branch of `call_tool` is not reached. -/
def call_tool (o : StageOracle) (args : ToolArguments) :
    ToolPayload × String × String :=
  let text := callToolText args
  let q := callToolQuestion args
  (ToolPayload.claimList (runPipeline o q text).1, q, text)

/-- A sequence of `extract_claims` invocations handled by the server: each
invocation constructs its own fresh `LLMClient` and `ClaimifyPipeline`
(claimify_server.py lines 72-74), so the handler carries no state from one
invocation to the next. -/
def handleCalls (o : StageOracle) (argsList : List ToolArguments) :
    List (ToolPayload × String × String) :=
  argsList.map (call_tool o)

/-! ## Server startup (src/claimify_server.py `main`, embedded from source) -/

/-- The process environment as `main` reads it: each variable is `none` when
unset (claimify_server.py lines 96-104). -/
structure Env where
  llmProvider : Option String
  openaiApiKey : Option String
  anthropicApiKey : Option String

/-- Python's `str.lower()` on the character sequence (a character-list
variant of `String.toLower`, used so that the model is kernel-evaluable). -/
def lowerString (s : String) : String :=
  String.mk (s.toList.map Char.toLower)

/-- `os.getenv("LLM_PROVIDER", "openai").lower()` (claimify_server.py
line 96). -/
def resolvedProvider (env : Env) : String :=
  lowerString (env.llmProvider.getD "openai")

/-- Python truthiness of `os.getenv(...)`: `None` and the empty string are
falsy. -/
def envTruthy : Option String → Bool
  | none => false
  | some s => s ≠ ""

/-- The outcome of the startup check in `main`. -/
inductive StartupOutcome where
  | exitFatal (code : Nat)
  | serverStarted
deriving Repr, DecidableEq

/-- The startup check of `main` (claimify_server.py lines 96-112): a
recognized provider with a missing (or empty) API key exits with status 1
before the stdio server is started; otherwise the server starts and accepts
runs. -/
def mainStartup (env : Env) : StartupOutcome :=
  let provider := resolvedProvider env
  if provider = "openai" && !envTruthy env.openaiApiKey then
    .exitFatal 1
  else if provider = "anthropic" && !envTruthy env.anthropicApiKey then
    .exitFatal 1
  else
    .serverStarted

/-! ## Helper lemmas -/

/-- Characters of any line produced by `splitLinesChars` come from the input
or the accumulator. -/
theorem mem_of_mem_splitLinesChars :
    ∀ (cs acc l : List Char), l ∈ splitLinesChars cs acc →
      ∀ c ∈ l, c ∈ cs ∨ c ∈ acc := by
  intro cs
  induction cs with
  | nil =>
    intro acc l hl c hc
    simp [splitLinesChars] at hl
    subst hl
    exact Or.inr (List.mem_reverse.mp hc)
  | cons x rest ih =>
    intro acc l hl c hc
    by_cases hx : x = '\n'
    · rw [splitLinesChars, if_pos hx] at hl
      rcases List.mem_cons.mp hl with h | h
      · subst h
        exact Or.inr (List.mem_reverse.mp hc)
      · rcases ih [] l h c hc with h' | h'
        · exact Or.inl (List.mem_cons_of_mem x h')
        · simp at h'
    · rw [splitLinesChars, if_neg hx] at hl
      rcases ih (x :: acc) l hl c hc with h' | h'
      · exact Or.inl (List.mem_cons_of_mem x h')
      · rcases List.mem_cons.mp h' with h'' | h''
        · exact Or.inl (h'' ▸ List.mem_cons_self x rest)
        · exact Or.inr h''

/-- Characters of any sentence produced by `splitSentChars` come from the
input or the accumulator. -/
theorem mem_of_mem_splitSentChars :
    ∀ (cs acc l : List Char), l ∈ splitSentChars cs acc →
      ∀ c ∈ l, c ∈ cs ∨ c ∈ acc := by
  intro cs
  induction cs with
  | nil =>
    intro acc l hl c hc
    simp only [splitSentChars] at hl
    by_cases ha : acc = []
    · simp [ha] at hl
    · rw [if_neg ha] at hl
      simp at hl
      subst hl
      exact Or.inr (List.mem_reverse.mp hc)
  | cons x rest ih =>
    intro acc l hl c hc
    simp only [splitSentChars] at hl
    split at hl
    · rcases List.mem_cons.mp hl with h | h
      · subst h
        rcases List.mem_cons.mp (List.mem_reverse.mp hc) with h' | h'
        · exact Or.inl (h' ▸ List.mem_cons_self x rest)
        · exact Or.inr h'
      · rcases ih [] l h c hc with h' | h'
        · exact Or.inl (List.mem_cons_of_mem x h')
        · simp at h'
    · rcases ih (x :: acc) l hl c hc with h' | h'
      · exact Or.inl (List.mem_cons_of_mem x h')
      · rcases List.mem_cons.mp h' with h'' | h''
        · exact Or.inl (h'' ▸ List.mem_cons_self x rest)
        · exact Or.inr h''

/-- Trimming a whitespace-only character list yields the empty list. -/
theorem trimChars_eq_nil (cs : List Char) (h : ∀ c ∈ cs, c.isWhitespace) :
    trimChars cs = [] := by
  unfold trimChars
  rw [List.dropWhile_eq_nil_iff.mpr h]
  simp

/-- Segmenting empty or whitespace-only text yields no sentences
(spec section 4.1, edge case). -/
theorem split_into_sentences_whitespace (text : String)
    (h : ∀ c ∈ text.toList, c.isWhitespace) :
    split_into_sentences text = [] := by
  unfold split_into_sentences
  have hfil : ∀ a ∈ (((splitLinesChars text.toList []).map
      (fun line => splitSentChars line [])).flatten.map trimChars), a = [] := by
    intro a ha
    simp only [List.mem_map, List.mem_flatten] at ha
    obtain ⟨s, ⟨sl, ⟨line, hline, hsl⟩, hs⟩, ha⟩ := ha
    subst hsl ha
    apply trimChars_eq_nil
    intro c hc
    rcases mem_of_mem_splitSentChars line [] s hs c hc with h' | h'
    · rcases mem_of_mem_splitLinesChars text.toList [] line hline c h' with h'' | h''
      · exact h c h''
      · simp at h''
    · simp at h'
  rw [List.map_eq_nil_iff, List.filter_eq_nil_iff]
  intro a ha
  simp [hfil a ha]

/-- Every stage call recorded for sentence `j` is tagged with index `j`. -/
theorem processSentence_calls_idx (o : StageOracle) (q : String) (j : Nat)
    (c : StageCall) (hc : c ∈ (processSentence o q j).2) : c.idx = j := by
  unfold processSentence at hc
  cases hs : o.selection j <;> simp only [hs] at hc
  case proceed u =>
    cases hd : o.disambiguation q j <;> simp only [hd] at hc
    case proceed s =>
      cases hdc : o.decomposition j <;> simp only [hdc] at hc <;>
        simp only [List.mem_cons, List.not_mem_nil, or_false] at hc <;>
        rcases hc with rfl | rfl | rfl <;> rfl
    all_goals
      simp only [List.mem_cons, List.not_mem_nil, or_false] at hc
      rcases hc with rfl | rfl <;> rfl
  all_goals
    simp only [List.mem_cons, List.not_mem_nil, or_false] at hc
    rcases hc with rfl
    rfl

/-- A sentence whose stage processing raises or returns malformed output
contributes no claims. -/
theorem processSentence_claims_of_failure (o : StageOracle) (q : String)
    (k : Nat) (h : stageFailure o q k = true) :
    (processSentence o q k).1 = [] := by
  unfold processSentence
  cases hs : o.selection k <;> simp only [hs]
  case proceed u =>
    cases hd : o.disambiguation q k <;> simp only [hd]
    case proceed s =>
      cases hdc : o.decomposition k <;> simp only [hdc]
      case proceed cs =>
        exfalso
        simp [stageFailure, hs, hd, hdc, StageResult.isProceed,
          StageResult.isFailure] at h

/-- The claims returned by a pipeline run are the flattened per-sentence
contributions, in sentence order. -/
theorem runPipeline_claims (o : StageOracle) (q text : String) :
    (runPipeline o q text).1 =
      ((List.range (split_into_sentences text).length).map
        (fun j => (processSentence o q j).1)).flatten := by
  simp only [runPipeline, List.map_map]
  rfl

/-- The calls made by a pipeline run are the flattened per-sentence traces. -/
theorem runPipeline_calls (o : StageOracle) (q text : String) :
    (runPipeline o q text).2 =
      ((List.range (split_into_sentences text).length).map
        (fun j => (processSentence o q j).2)).flatten := by
  simp only [runPipeline, List.map_map]
  rfl

/-- Any claim contributed by an in-range sentence appears in the run's final
claim list. -/
theorem mem_run_claims_of_mem_processSentence (o : StageOracle)
    (q text : String) (j : Nat) (c : String)
    (hj : j < (split_into_sentences text).length)
    (hc : c ∈ (processSentence o q j).1) :
    c ∈ (runPipeline o q text).1 := by
  rw [runPipeline_claims]
  exact List.mem_flatten_of_mem
    (List.mem_map_of_mem _ (List.mem_range.mpr hj)) hc

example : (split_into_sentences testText).length = 3 := by decide
example : split_into_sentences testText =
    ["This is the first sentence.", "This is the second sentence.",
     "This is a third sentence on a new line."] := by decide
example : contextWindow (split_into_sentences testText) 1 1 1 =
    split_into_sentences testText := by decide
example : split_into_sentences "" = [] := by decide
example : split_into_sentences "  \n \t " = [] := by decide

/-! ## Concrete fixtures used by the witness theorems -/

/-- A concrete oracle whose every stage proceeds; sentence `i` decomposes
into one claim. -/
def allProceedOracle : StageOracle where
  selection := fun _ => .proceed ()
  disambiguation := fun _ _ => .proceed "rewritten"
  decomposition := fun i => .proceed ["claim " ++ toString i]

/-- A concrete oracle whose selection-stage call raises an exception for
sentence 1 and proceeds on every other sentence. -/
def raiseAtOneOracle : StageOracle where
  selection := fun i => if i = 1 then .raised "boom" else .proceed ()
  disambiguation := fun _ _ => .proceed "rewritten"
  decomposition := fun i => .proceed ["claim " ++ toString i]

/-- A concrete oracle whose selection stage rejects sentence 0 and proceeds
on every other sentence. -/
def rejectAtZeroOracle : StageOracle where
  selection := fun i => if i = 0 then .reject "no verifiable content" else .proceed ()
  disambiguation := fun _ _ => .proceed "rewritten"
  decomposition := fun i => .proceed ["claim " ++ toString i]

/-- Tool arguments that omit the question. -/
def argsNoQuestion : ToolArguments := ⟨some "Paris is in France.", none⟩

/-- Tool arguments that omit the text to process. -/
def argsOmittedText : ToolArguments := ⟨none, none⟩

/-- An environment with the OpenAI provider implied by default and no OpenAI
key set. -/
def envMissingOpenaiKey : Env := ⟨none, none, some "sk-test"⟩

/-- An environment naming an unrecognized provider, with no key set at all. -/
def envGemini : Env := ⟨some "Gemini", none, none⟩

/-! ## Claim theorems -/

/-- C1: every `extract_claims` invocation hands the caller a well-formed
(possibly empty) ordered claim list — the payload is always the `claimList`
shape, namely the pipeline run's claim list, never some other shape of
payload, whatever verdicts, malformed responses or raised exceptions the
per-sentence stage calls produce. -/
theorem extract_claims_always_returns_claim_list (o : StageOracle)
    (args : ToolArguments) :
    ∃ cs : List String, (call_tool o args).1 = ToolPayload.claimList cs ∧
      cs = (runPipeline o (callToolQuestion args) (callToolText args)).1 :=
  ⟨_, rfl, rfl⟩

/-- C2: if sentence `k`'s stage processing raises an exception or returns
malformed output while sentences `k-1` and `k+1` process normally, the final
claim list still contains every claim of sentences `k-1` and `k+1`, sentence
`k` contributes zero claims, and the run still completes with the flattened
per-sentence contributions. -/
theorem partial_failure_isolation (o : StageOracle) (q text : String)
    (k : Nat) (hfail : stageFailure o q k = true)
    (_hprev : chainSucceeds o q (k - 1) = true)
    (_hnext : chainSucceeds o q (k + 1) = true)
    (hk : 1 ≤ k) (hn : k + 1 < (split_into_sentences text).length) :
    (∀ c ∈ (processSentence o q (k - 1)).1, c ∈ (runPipeline o q text).1) ∧
    (∀ c ∈ (processSentence o q (k + 1)).1, c ∈ (runPipeline o q text).1) ∧
    (processSentence o q k).1 = [] ∧
    (runPipeline o q text).1 =
      ((List.range (split_into_sentences text).length).map
        (fun j => (processSentence o q j).1)).flatten := by
  refine ⟨?_, ?_, processSentence_claims_of_failure o q k hfail,
    runPipeline_claims o q text⟩
  · intro c hc
    exact mem_run_claims_of_mem_processSentence o q text (k - 1) c (by omega) hc
  · intro c hc
    exact mem_run_claims_of_mem_processSentence o q text (k + 1) c hn hc

/-- C2 witness: a concrete run over the three-sentence test text in which
sentence 1's selection call raises while sentences 0 and 2 succeed. -/
theorem partial_failure_isolation_witness :
    (stageFailure raiseAtOneOracle "q" 1 = true ∧
      chainSucceeds raiseAtOneOracle "q" 0 = true ∧
      chainSucceeds raiseAtOneOracle "q" 2 = true ∧
      1 ≤ 1 ∧ 1 + 1 < (split_into_sentences testText).length) ∧
    ((∀ c ∈ (processSentence raiseAtOneOracle "q" (1 - 1)).1,
        c ∈ (runPipeline raiseAtOneOracle "q" testText).1) ∧
      (∀ c ∈ (processSentence raiseAtOneOracle "q" (1 + 1)).1,
        c ∈ (runPipeline raiseAtOneOracle "q" testText).1) ∧
      (processSentence raiseAtOneOracle "q" 1).1 = [] ∧
      (runPipeline raiseAtOneOracle "q" testText).1 =
        ((List.range (split_into_sentences testText).length).map
          (fun j => (processSentence raiseAtOneOracle "q" j).1)).flatten) :=
  ⟨⟨by decide, by decide, by decide, by decide, by decide⟩,
    partial_failure_isolation raiseAtOneOracle "q" testText 1 (by decide)
      (by decide) (by decide) (by decide) (by decide)⟩

/-- C3: when the arguments omit the `question` field, the pipeline of that
invocation is constructed with exactly the placeholder string
`The user did not provide a question.` as the guiding question, and the run
is performed with that question. -/
theorem omitted_question_uses_placeholder (o : StageOracle)
    (args : ToolArguments) (h : args.question = none) :
    (call_tool o args).2.1 = "The user did not provide a question." ∧
    (call_tool o args).1 = ToolPayload.claimList
      (runPipeline o "The user did not provide a question."
        (callToolText args)).1 := by
  constructor
  · simp [call_tool, callToolQuestion, noQuestionDefault, h]
  · simp [call_tool, callToolQuestion, noQuestionDefault, h]

/-- C3 witness: a concrete invocation with the question omitted. -/
theorem omitted_question_uses_placeholder_witness :
    argsNoQuestion.question = none ∧
    ((call_tool allProceedOracle argsNoQuestion).2.1 =
        "The user did not provide a question." ∧
      (call_tool allProceedOracle argsNoQuestion).1 = ToolPayload.claimList
        (runPipeline allProceedOracle "The user did not provide a question."
          (callToolText argsNoQuestion)).1) :=
  ⟨rfl, omitted_question_uses_placeholder allProceedOracle argsNoQuestion rfl⟩

/-- C4: if the API key for the configured (recognized) provider is absent at
startup, `main` exits with status 1 and the stdio server is never started,
so the failure is surfaced before any run begins. -/
theorem missing_api_key_fatal_at_startup (env : Env)
    (h : (resolvedProvider env = "openai" ∧ env.openaiApiKey = none) ∨
      (resolvedProvider env = "anthropic" ∧ env.anthropicApiKey = none)) :
    mainStartup env = StartupOutcome.exitFatal 1 ∧
    mainStartup env ≠ StartupOutcome.serverStarted := by
  have hf : mainStartup env = StartupOutcome.exitFatal 1 := by
    rcases h with ⟨hp, hk⟩ | ⟨hp, hk⟩
    · simp [mainStartup, hp, hk, envTruthy]
    · simp [mainStartup, hp, hk, envTruthy]
  exact ⟨hf, by simp [hf]⟩

/-- C4 witness: the default provider (openai) with no OpenAI key set. -/
theorem missing_api_key_fatal_at_startup_witness :
    ((resolvedProvider envMissingOpenaiKey = "openai" ∧
        envMissingOpenaiKey.openaiApiKey = none) ∨
      (resolvedProvider envMissingOpenaiKey = "anthropic" ∧
        envMissingOpenaiKey.anthropicApiKey = none)) ∧
    (mainStartup envMissingOpenaiKey = StartupOutcome.exitFatal 1 ∧
      mainStartup envMissingOpenaiKey ≠ StartupOutcome.serverStarted) :=
  ⟨Or.inl ⟨by decide, rfl⟩,
    missing_api_key_fatal_at_startup envMissingOpenaiKey
      (Or.inl ⟨by decide, rfl⟩)⟩

/-- C5: on the literal test input, segmentation returns exactly 3 sentences,
and the context for target index 1 with window 1 before and 1 after consists
of all three sentences (0, 1 and 2) joined as a 3-line text. -/
theorem literal_scenario_three_sentences_three_line_context :
    (split_into_sentences testText).length = 3 ∧
    contextWindow (split_into_sentences testText) 1 1 1 =
      split_into_sentences testText ∧
    create_context_for_sentence (split_into_sentences testText) 1 1 1 =
      some (String.intercalate "\n" (split_into_sentences testText)) ∧
    (splitLinesChars
      (String.intercalate "\n" (split_into_sentences testText)).toList
      []).length = 3 := by
  refine ⟨by decide, by decide, by decide, by decide⟩

/-- C6: for every sentence list, valid target index `i` and window sizes `b`
(before) and `a` (after), the context builder never includes a sentence index
outside `[0, n-1]`, and the returned context has exactly
`min i b + min (n-1-i) a + 1` lines (one windowed sentence per line),
clamping at the document boundaries rather than failing. -/
theorem context_window_clamping (sentences : List String) (i b a : Nat)
    (h : i < sentences.length) :
    (∀ j ∈ contextIndices sentences.length i b a, j < sentences.length) ∧
    (contextWindow sentences i b a).length =
      min i b + min (sentences.length - 1 - i) a + 1 ∧
    create_context_for_sentence sentences i b a =
      some (String.intercalate "\n" (contextWindow sentences i b a)) := by
  refine ⟨?_, ?_, ?_⟩
  · intro j hj
    rw [contextIndices, List.mem_range'_1] at hj
    omega
  · rw [contextWindow, List.length_map, contextIndices, List.length_range']
    omega
  · rw [create_context_for_sentence, if_pos h]

/-- C6 witness: a 3-sentence document, target index 1, window sizes 1 before
and 5 after (the after-window clamps at the last sentence). -/
theorem context_window_clamping_witness :
    (1 : Nat) < (["a", "b", "c"] : List String).length ∧
    ((∀ j ∈ contextIndices (["a", "b", "c"] : List String).length 1 1 5,
        j < (["a", "b", "c"] : List String).length) ∧
      (contextWindow ["a", "b", "c"] 1 1 5).length =
        min 1 1 + min ((["a", "b", "c"] : List String).length - 1 - 1) 5 + 1 ∧
      create_context_for_sentence ["a", "b", "c"] 1 1 5 =
        some (String.intercalate "\n" (contextWindow ["a", "b", "c"] 1 1 5))) :=
  ⟨by decide, context_window_clamping ["a", "b", "c"] 1 1 5 (by decide)⟩

/-- C7: if the selection stage rejects sentence `i`, then no disambiguation
call and no decomposition call for sentence `i` occurs anywhere in the run,
and sentence `i` contributes zero claims to the final result. -/
theorem selection_reject_short_circuits (o : StageOracle) (q text : String)
    (i : Nat) (r : String) (h : o.selection i = StageResult.reject r) :
    StageCall.disambiguation i ∉ (runPipeline o q text).2 ∧
    StageCall.decomposition i ∉ (runPipeline o q text).2 ∧
    (processSentence o q i).1 = [] ∧
    (runPipeline o q text).1 =
      ((List.range (split_into_sentences text).length).map
        (fun j => (processSentence o q j).1)).flatten := by
  have htrace : (processSentence o q i).2 = [StageCall.selection i] := by
    unfold processSentence
    simp only [h]
  have hclaims : (processSentence o q i).1 = [] := by
    unfold processSentence
    simp only [h]
  have key : ∀ s : StageCall, s.idx = i → s ∈ (runPipeline o q text).2 →
      s = StageCall.selection i := by
    intro s hidx hs
    rw [runPipeline_calls, List.mem_flatten] at hs
    obtain ⟨l, hl, hsl⟩ := hs
    rw [List.mem_map] at hl
    obtain ⟨j, _, rfl⟩ := hl
    have hj : s.idx = j := processSentence_calls_idx o q j s hsl
    rw [hidx] at hj
    subst hj
    rw [htrace] at hsl
    simpa using hsl
  refine ⟨fun hmem => ?_, fun hmem => ?_, hclaims, runPipeline_claims o q text⟩
  · exact absurd (key (StageCall.disambiguation i) rfl hmem) (by simp)
  · exact absurd (key (StageCall.decomposition i) rfl hmem) (by simp)

/-- C7 witness: a concrete run over the three-sentence test text in which
selection rejects sentence 0. -/
theorem selection_reject_short_circuits_witness :
    rejectAtZeroOracle.selection 0 =
      StageResult.reject "no verifiable content" ∧
    (StageCall.disambiguation 0 ∉
        (runPipeline rejectAtZeroOracle "q" testText).2 ∧
      StageCall.decomposition 0 ∉
        (runPipeline rejectAtZeroOracle "q" testText).2 ∧
      (processSentence rejectAtZeroOracle "q" 0).1 = [] ∧
      (runPipeline rejectAtZeroOracle "q" testText).1 =
        ((List.range (split_into_sentences testText).length).map
          (fun j => (processSentence rejectAtZeroOracle "q" j).1)).flatten) :=
  ⟨rfl, selection_reject_short_circuits rejectAtZeroOracle "q" testText 0
    "no verifiable content" rfl⟩

/-- C8: for empty or whitespace-only input text — including an invocation
that omits `text_to_process` altogether, which is treated as empty input
rather than an error — segmentation yields no sentences, the run returns an
empty claim list, and zero external model calls are made. -/
theorem empty_input_empty_claims_no_calls (o : StageOracle)
    (args : ToolArguments)
    (h : args.text_to_process = none ∨
      ∀ c ∈ (callToolText args).toList, c.isWhitespace) :
    split_into_sentences (callToolText args) = [] ∧
    runPipeline o (callToolQuestion args) (callToolText args) = ([], []) ∧
    (call_tool o args).1 = ToolPayload.claimList [] ∧
    (args.text_to_process = none → callToolText args = "") := by
  have hws : ∀ c ∈ (callToolText args).toList, c.isWhitespace := by
    rcases h with h | h
    · intro c hc
      simp [callToolText, h] at hc
    · exact h
  have hseg := split_into_sentences_whitespace _ hws
  have hrun : runPipeline o (callToolQuestion args) (callToolText args) =
      ([], []) := by
    simp [runPipeline, hseg]
  refine ⟨hseg, hrun, ?_, fun hn => by simp [callToolText, hn]⟩
  simp [call_tool, hrun]

/-- C8 witness: an invocation that omits `text_to_process`. -/
theorem empty_input_empty_claims_no_calls_witness :
    (argsOmittedText.text_to_process = none ∨
      ∀ c ∈ (callToolText argsOmittedText).toList, c.isWhitespace) ∧
    (split_into_sentences (callToolText argsOmittedText) = [] ∧
      runPipeline allProceedOracle (callToolQuestion argsOmittedText)
        (callToolText argsOmittedText) = ([], []) ∧
      (call_tool allProceedOracle argsOmittedText).1 =
        ToolPayload.claimList [] ∧
      (argsOmittedText.text_to_process = none →
        callToolText argsOmittedText = "")) :=
  ⟨Or.inl rfl,
    empty_input_empty_claims_no_calls allProceedOracle argsOmittedText
      (Or.inl rfl)⟩

/-- C9: the server handles each `extract_claims` invocation with a fresh
pipeline and carries no state between invocations: handling a batch is the
per-invocation handler mapped over the batch, so the result of an invocation
is the same whatever invocations preceded it. -/
theorem invocations_are_independent (o : StageOracle)
    (hist : List ToolArguments) (args : ToolArguments) :
    handleCalls o (hist ++ [args]) =
      handleCalls o hist ++ [call_tool o args] ∧
    (handleCalls o (hist ++ [args])).getLast? = some (call_tool o args) := by
  constructor
  · simp [handleCalls]
  · simp [handleCalls]

/-- C10: any provider value that lowercases to something other than
`openai` or `anthropic` makes the startup check skip credential validation
entirely: the server starts even with no API key set at all, and the
unrecognized name is not itself rejected. -/
theorem unrecognized_provider_skips_credential_check (env : Env)
    (h1 : resolvedProvider env ≠ "openai")
    (h2 : resolvedProvider env ≠ "anthropic") :
    mainStartup env = StartupOutcome.serverStarted := by
  simp [mainStartup, h1, h2]

/-- C10 witness: provider `Gemini` (lowercasing to `gemini`), with neither
API key set: the server still starts. -/
theorem unrecognized_provider_skips_credential_check_witness :
    resolvedProvider envGemini ≠ "openai" ∧
    resolvedProvider envGemini ≠ "anthropic" ∧
    mainStartup envGemini = StartupOutcome.serverStarted :=
  ⟨by decide, by decide,
    unrecognized_provider_skips_credential_check envGemini (by decide)
      (by decide)⟩

end Claimify
